import Mathlib

/-!
Verification of the VoiceAgent per-utterance turn pipeline
(`backend/fastrtc_server.py` `response_handler`, `backend/models/model_manager.py`,
`backend/models/base_model.py`, `backend/config/app_config.py`).

The Python code is shallowly embedded: strings are `List Char`, Python floats
are idealised as rationals (`ℚ`), numpy arrays are lists of rationals, and the
external collaborators (STT engine, AI text-generation model, TTS synthesizer)
appear as explicit parameters.  The only operation that cannot be expressed in
`ℚ` is the square root inside the low-energy RMS gain (fastrtc_server.py line
178); it is passed in as an abstract function `sqrtFn`, and every comparison
against an RMS value is rewritten to the equivalent comparison of its square
(sqrt is monotone on nonnegatives), so no other part of the embedding depends
on `sqrtFn`.
-/

namespace VoiceAgent

/-- Python strings are modelled as lists of characters. -/
abbrev Str := List Char

/-- Character list of a Lean string literal. -/
def chars (s : String) : Str := s.data

/-- Whitespace characters stripped by Python `str.strip()` (the ASCII subset;
all strings appearing in the repository are ASCII). -/
def isSpaceCh (c : Char) : Bool :=
  c == ' ' || c == '\t' || c == '\n' || c == '\r' || c == '\x0b' || c == '\x0c'

/-- Python `str.strip()`: drop leading and trailing whitespace. -/
def pyStrip (s : Str) : Str :=
  ((s.dropWhile isSpaceCh).reverse.dropWhile isSpaceCh).reverse

/-- Does `needle` occur at the start of `hay`? -/
def startsWithL : Str → Str → Bool
  | [], _ => true
  | _ :: _, [] => false
  | a :: as, b :: bs => a == b && startsWithL as bs

/-- Python `needle in hay`: substring containment. -/
def containsSub (needle : Str) : Str → Bool
  | [] => needle.isEmpty
  | b :: bs => startsWithL needle (b :: bs) || containsSub needle bs

/-! ## Streaming turn orchestrator (fastrtc_server.py lines 356-402)

The handler accumulates text fragments in `text_buffer`; whenever the stripped
buffer reaches `min_tts_length` it synthesizes the stripped buffer, yields the
resulting audio if synthesis succeeded, and clears the buffer (the buffer is
cleared even when synthesis fails, line 392).  At stream end a final flush runs
if the stripped buffer is non-empty.  A yielded segment is recorded here by the
text handed to the synthesizer (the segment's `sourceText`); the audio bytes
are external. -/

/-- `min_tts_length` (fastrtc_server.py line 357). -/
def minTtsLength : Nat := 3

/-- Orchestrator state: the pending text buffer and the source texts of the
segments yielded so far, in yield order. -/
structure OrchState where
  buffer : Str
  yielded : List Str
deriving DecidableEq, Repr

/-- One iteration of the fragment loop (lines 360-392): append the fragment,
flush when the stripped buffer reaches the threshold.  `synth t = true` means
`create_tts_audio` returned audio for text `t`. -/
def stepChunk (synth : Str → Bool) (minLen : Nat) (st : OrchState) (chunk : Str) :
    OrchState :=
  let buf := st.buffer ++ chunk
  let t := pyStrip buf
  if minLen ≤ t.length then
    { buffer := [], yielded := st.yielded ++ (if synth t then [t] else []) }
  else
    { buffer := buf, yielded := st.yielded }

/-- Fold the fragment loop over a list of fragments. -/
def runChunks (synth : Str → Bool) (minLen : Nat) (st : OrchState)
    (chunks : List Str) : OrchState :=
  chunks.foldl (stepChunk synth minLen) st

/-- The final flush of remaining text at stream end (lines 394-402). -/
def drainFinal (synth : Str → Bool) (st : OrchState) : List Str :=
  let t := pyStrip st.buffer
  if t.isEmpty then st.yielded
  else st.yielded ++ (if synth t then [t] else [])

/-- Source texts of all segments yielded for a given fragment stream. -/
def orchestrate (synth : Str → Bool) (minLen : Nat) (chunks : List Str) :
    List Str :=
  drainFinal synth (runChunks synth minLen ⟨[], []⟩ chunks)

/-- A synthesizer for which every call succeeds. -/
def ttsOk : Str → Bool := fun _ => true

/-! ## AI model layer (models/model_manager.py lines 74-93)

`ModelManager.call_ai_api_stream` wraps the model's stream in its own
try/except: if the model is not configured it yields a single message and
returns; if the underlying `call_api_stream` raises (whether before the first
fragment or mid-stream) the exception is caught and one fixed apology fragment
is yielded in its place.  The handler in `fastrtc_server.py` therefore never
observes an exception from this stream. -/

/-- The fixed apology yielded by `call_ai_api_stream` when the model call
raises (model_manager.py line 92). -/
def mmApology : Str := chars "Sorry, AI model encountered an issue while processing."

/-- The message yielded when the current model is not configured
(model_manager.py line 82). -/
def notConfiguredMsg (provider : Str) : Str :=
  chars "Sorry, " ++ provider ++ chars " model is not properly configured."

/-- The fallback text synthesized by `response_handler`'s own exception branch
(fastrtc_server.py line 433); that branch is reachable only for exceptions
raised inside the handler loop itself, not for generation-stream failures. -/
def handlerFallback : Str := chars "Sorry, there was an issue processing your request."

/-- Abstract state of one call to the external text-generation model:
whether the current model is configured, the fragments its stream yields, and
whether the underlying stream raises after those fragments. -/
structure GenInput where
  configured : Bool
  fragments : List Str
  failsAfter : Bool
deriving DecidableEq, Repr

/-- `ModelManager.call_ai_api_stream` as the list of text fragments the
handler's loop receives. -/
def callAiApiStream (provider : Str) (g : GenInput) : List Str :=
  if g.configured then
    g.fragments ++ (if g.failsAfter then [mmApology] else [])
  else
    [notConfiguredMsg provider]

/-! ## Conversation history (models/base_model.py lines 31-36) -/

/-- One `{"role": ..., "content": ...}` message of the conversation history. -/
structure HistoryEntry where
  role : Str
  content : Str
deriving DecidableEq, Repr

/-- `BaseAIModel.add_to_history`: append the message; if the history then has
more than 20 entries keep only the last 20 (`history[-20:]`). -/
def addToHistory (h : List HistoryEntry) (role content : Str) : List HistoryEntry :=
  let h' := h ++ [⟨role, content⟩]
  if h'.length > 20 then h'.drop (h'.length - 20) else h'

/-! ## Transcription gate and transcript quality filter
(fastrtc_server.py lines 280-343) -/

/-- The transcriber's result dictionary.  `noSpeechProb` models
`result.get('no_speech_prob', 0)` (a missing key is the value `0`). -/
structure TranscriptionResult where
  text : Str
  language : Str
  noSpeechProb : ℚ
deriving DecidableEq, Repr

/-- The deny-list of known bad substrings (fastrtc_server.py line 305),
in the order the loop checks them. -/
def badStrings : List Str :=
  [chars "subtitle by someone", chars "subtitle by", chars "subtitle"]

/-- The hallucination phrase list (fastrtc_server.py lines 330-334), with its
duplicated `"subtitle"` entry kept. -/
def hallucinationPatterns : List Str :=
  [chars "Thank you.", chars "thanks", chars "Thank you for watching",
   chars "please like subscribe and share", chars "thanks for watching",
   chars "subtitle", chars "subtitle", chars "captions"]

/-- The quality-filter rejection reason, one constructor per `bad_reason`
format string; the payloads are the interpolated values. -/
inductive BadReason where
  | containsErrorString (s : Str)
  | tooManyExclamations (count : Nat) (density : ℚ)
  | highRepeatDensity (density : ℚ)
  | longLoveText
  | lowAlphaRatio (cleanLen totalLen : Nat)
  | hallucinationPattern (s : Str)
deriving DecidableEq, Repr

/-- The transcript quality filter (fastrtc_server.py lines 289-339).  The flag
mirrors `is_bad_pattern`, which once set stays set; the reason mirrors
`bad_reason`, which each matching rule overwrites, so the pair reported at
line 342 carries the reason of the last matching rule.  `none` models the
initial `bad_reason = ""`. -/
def qualityFilter (t : Str) : Bool × Option BadReason :=
  let exCount := t.count '!'
  let exDensity : ℚ := if t.length > 0 then (exCount : ℚ) / (t.length : ℚ) else 0
  let noWs := t.filter (fun c => !(c == ' ') && !(c == '\n'))
  let uniqueChars := noWs.dedup.length
  let totalChars := noWs.length
  let repeatDensity : ℚ :=
    if totalChars > 0 then 1 - (uniqueChars : ℚ) / (totalChars : ℚ) else 0
  let cleanLen := (t.filter (fun c => c.isAlpha)).length
  let s1 : Bool × Option BadReason :=
    match badStrings.find? (fun p => containsSub p t) with
    | some p => (true, some (.containsErrorString p))
    | none => (false, none)
  let s2 := if exCount > 20 ∨ exDensity > 3 / 10 then
    (true, some (.tooManyExclamations exCount exDensity)) else s1
  let s3 := if repeatDensity > 4 / 5 ∧ totalChars > 10 then
    (true, some (.highRepeatDensity repeatDensity)) else s2
  let s4 := if t.length > 200 ∧
      (containsSub (chars "I love you") t ∨ containsSub (chars "love you") t) then
    (true, some .longLoveText) else s3
  let s5 := if (cleanLen : ℚ) < (t.length : ℚ) * (3 / 10) then
    (true, some (.lowAlphaRatio cleanLen t.length)) else s4
  match hallucinationPatterns.find? (fun p => containsSub p t) with
  | some p => (true, some (.hallucinationPattern p))
  | none => s5

/-- Outcome of one turn from the transcription result onward.  Rejections
yield no speech segments; `completed` carries the source texts of the yielded
segments in order. -/
inductive TurnResult where
  | rejectedGate
  | rejectedFilter (reason : Option BadReason)
  | noSpeech
  | completed (segments : List Str)
deriving DecidableEq, Repr

/-- Source texts of the segments the caller receives for a turn outcome. -/
def segmentsOf : TurnResult → List Str
  | .completed segs => segs
  | _ => []

/-- The turn from a transcription result onward (fastrtc_server.py lines
280-437): strip the text, apply the confidence gate (line 285), the quality
filter (lines 289-343), then run the streaming orchestrator over the model
stream with `min_tts_length = 3`. -/
def runFromTranscription (r : TranscriptionResult) (provider : Str)
    (g : GenInput) (synth : Str → Bool) : TurnResult :=
  let t := pyStrip r.text
  if t.isEmpty ∨ 9 / 10 < r.noSpeechProb then .rejectedGate
  else if t.isEmpty then .noSpeech
  else if (qualityFilter t).1 then .rejectedFilter (qualityFilter t).2
  else .completed (orchestrate synth minTtsLength (callAiApiStream provider g))

/-! ## Audio conditioner (fastrtc_server.py lines 111-267)

Raw audio arrives as a numpy array (1-D, or 2-D collapsed to mono) of int16,
int32 or float32 samples together with a sample rate.  Samples are modelled as
rationals; for the integer dtypes they are integer-valued. -/

/-- Raw audio array: one-dimensional, or two-dimensional as a list of rows. -/
inductive AudioInput where
  | mono (samples : List ℚ)
  | multi (rows : List (List ℚ))
deriving DecidableEq, Repr

/-- Python `len(audio_data)`: the length of the first axis. -/
def pyLenAudio : AudioInput → Nat
  | .mono s => s.length
  | .multi rows => rows.length

/-- Mono collapse (lines 126-130): a 1×N array keeps its single row, any other
multi-dimensional array is flattened in row-major order. -/
def collapseMono : AudioInput → List ℚ
  | .mono s => s
  | .multi [r] => r
  | .multi rows => rows.flatten

/-- numpy `audio_data[::2]`: keep the elements at even indices. -/
def everySecond : List α → List α
  | [] => []
  | [a] => [a]
  | a :: _ :: t => a :: everySecond t

/-- A second reading of "keep every second sample", written as an alternating
take/skip walk; used to state what decimation does independently of the
slicing primitive. -/
def everyOther : Bool → List α → List α
  | _, [] => []
  | true, a :: t => a :: everyOther false t
  | false, _ :: t => everyOther true t

/-- The sample-rate conversion stage (lines 140-146): only an input at exactly
48000 Hz is decimated, to 24000 Hz; every other rate passes through. -/
def downsampleStage (l : List ℚ) (rate : Nat) : List ℚ × Nat :=
  if rate = 48000 then (everySecond l, 24000) else (l, rate)

/-- The sample rates accepted by the configuration validator
(config/app_config.py line 188). -/
def supportedSampleRates : List Nat := [8000, 16000, 22050, 24000, 44100, 48000]

/-- The mono, rate-converted signal for a raw input. -/
def processedAudio (input : AudioInput) (rate : Nat) : List ℚ × Nat :=
  downsampleStage (collapseMono input) rate

/-- `duration = len(audio_data) / sample_rate` (lines 132 and 145). -/
def durationOf (p : List ℚ × Nat) : ℚ := (p.1.length : ℚ) / (p.2 : ℚ)

/-- The per-turn limits read from `PERFORMANCE_CONFIG`
(config/app_config.py lines 84-85, overridable by environment variables). -/
structure PerfCfg where
  minAudioDuration : ℚ
  maxAudioDuration : ℚ
deriving DecidableEq, Repr

/-- Python `int(...)`: truncation toward zero. -/
def pyInt (q : ℚ) : ℤ := if 0 ≤ q then q.floor else q.ceil

/-- The PCM dtype of the incoming array (lines 162-167). -/
inductive PcmType where
  | i16
  | i32
  | f32
deriving DecidableEq, Repr

/-- Conversion to normalized float (lines 162-167): int16 divides by 32768,
int32 by 2147483648, float passes through. -/
def toFloat : PcmType → List ℚ → List ℚ
  | .i16, l => l.map (· / 32768)
  | .i32, l => l.map (· / 2147483648)
  | .f32, l => l

/-- numpy `np.mean` of a list of rationals (the lists reaching it are
non-empty; on `[]` this gives `0` where numpy gives NaN). -/
def meanQ (l : List ℚ) : ℚ := l.sum / (l.length : ℚ)

/-- Mean of the squares, i.e. the square of the RMS of the signal. -/
def meanSqQ (l : List ℚ) : ℚ := (l.map (fun x => x ^ 2)).sum / (l.length : ℚ)

/-- numpy population variance `np.var`. -/
def varQ (l : List ℚ) : ℚ := meanSqQ (l.map (fun x => x - meanQ l))

/-- `np.max(np.abs(l))` for non-empty `l` (with `0` as the empty default). -/
def maxAbsQ (l : List ℚ) : ℚ := (l.map (fun x => |x|)).foldr max 0

/-- `np.sum(np.diff(np.signbit(l)))`: numpy `diff` on a boolean array is the
pointwise XOR of adjacent entries, so this counts adjacent sign-bit changes. -/
def countZeroCrossings (l : List ℚ) : Nat :=
  countFlips (l.map (fun x => decide (x < 0)))
where
  countFlips : List Bool → Nat
    | [] => 0
    | [_] => 0
    | a :: b :: t => (if a ≠ b then 1 else 0) + countFlips (b :: t)

/-- The low-amplitude normalization step (lines 224-227): when the peak
amplitude is strictly between 0 and 0.01, rescale by `0.1 / peak`. -/
def normalizeAmplitude (l : List ℚ) : List ℚ :=
  if 0 < maxAbsQ l ∧ maxAbsQ l < 1 / 100 then
    l.map (fun x => x / maxAbsQ l * (1 / 10))
  else l

/-- The float-signal conditioning chain (lines 171-246), from the RMS check to
the signal handed to transcription; `none` is an early `return` (rejection).
The comparisons `rms_float < 0.001` and `rms_float > 0`, and the flatness
check `audio_std < 1e-6`, are expressed on the squares (`meanSq < 1e-6`,
`meanSq > 0`, `var < 1e-12`), which is equivalent since square root is
monotone on nonnegatives; the irrational gain `0.01 / rms_float` of the
low-energy enhancement is taken from the abstract square-root routine
`sqrtFn`.  The NaN/Inf check of line 210 cannot fire on rationals.  The debug
sink (lines 187-204) does not change the signal and is omitted. -/
def conditionFloat (cfg : PerfCfg) (rate : Nat) (sqrtFn : ℚ → ℚ)
    (fl0 : List ℚ) : Option (List ℚ) :=
  let ms := meanSqQ fl0
  if ms < 1 / 1000000 ∧ ¬0 < ms then none
  else
    let fl1 := if ms < 1 / 1000000 then
      fl0.map (· * min (1 / 100 / sqrtFn ms) 50) else fl0
    if fl1.isEmpty then none
    else if fl1.length < (pyInt (cfg.minAudioDuration * rate)).toNat then none
    else
      let fl2 := fl1.take (pyInt (cfg.maxAudioDuration * rate)).toNat
      let fl3 := normalizeAmplitude fl2
      if varQ fl3 < 1 / 1000000000000 then none
      else
        let fl4 := if (countZeroCrossings fl3 : ℚ) / (fl3.length : ℚ) < 1 / 10000
          then fl3.map (· - meanQ fl3) else fl3
        some fl4

/-- The int16 conversion handed to the transcriber (line 264):
`(audio_float * 32768.0).clip(-32768, 32767).astype(np.int16)`. -/
def floatToInt16 (l : List ℚ) : List ℤ :=
  l.map (fun x => pyInt (max (-32768) (min 32767 (x * 32768))))

/-- The external transcriber: its loaded flag and its `transcribe` call, with
`none` for a raised exception (lines 255-278). -/
structure SttOracle where
  loaded : Bool
  transcribe : List ℤ → Nat → Option TranscriptionResult

/-- Which early return of the audio path was taken. -/
inductive AudioRejectStage where
  | emptyInput
  | tooShort
  | conditionFailed
deriving DecidableEq, Repr

/-- Outcome of a whole turn, audio included. -/
inductive FullTurnResult where
  | rejectedAudio (stage : AudioRejectStage)
  | sttUnavailable
  | sttError
  | textStage (r : TurnResult)
deriving DecidableEq, Repr

/-- Source texts of the segments yielded over the whole turn. -/
def fullSegmentsOf : FullTurnResult → List Str
  | .textStage r => segmentsOf r
  | _ => []

/-- Did the audio conditioner reject the turn (an early `return` before the
transcription attempt)? -/
def isConditionerRejection : FullTurnResult → Bool
  | .rejectedAudio _ => true
  | _ => false

/-- `response_handler` end to end: empty check (line 121), mono collapse,
rate conversion, the duration gate (line 158), dtype conversion, the float
conditioning chain, the transcriber call, then the text-side turn. -/
def runAudioTurn (cfg : PerfCfg) (sqrtFn : ℚ → ℚ) (input : AudioInput)
    (rate : Nat) (dt : PcmType) (stt : SttOracle) (provider : Str)
    (g : GenInput) (synth : Str → Bool) : FullTurnResult :=
  if pyLenAudio input = 0 then .rejectedAudio .emptyInput
  else
    let pa := processedAudio input rate
    if durationOf pa < cfg.minAudioDuration then .rejectedAudio .tooShort
    else
      match conditionFloat cfg pa.2 sqrtFn (toFloat dt pa.1) with
      | none => .rejectedAudio .conditionFailed
      | some sig =>
        if !stt.loaded then .sttUnavailable
        else
          match stt.transcribe (floatToInt16 sig) pa.2 with
          | none => .sttError
          | some r => .textStage (runFromTranscription r provider g synth)

/-! ## Helper lemmas -/

/-- A string free of the whitespace characters stripped by `str.strip()`. -/
def wsFree (s : Str) : Bool := s.all (fun c => !isSpaceCh c)

theorem wsFree_append {a b : Str} (ha : wsFree a = true) (hb : wsFree b = true) :
    wsFree (a ++ b) = true := by
  simp only [wsFree, List.all_append, Bool.and_eq_true] at *
  exact ⟨ha, hb⟩

theorem wsFree_reverse (s : Str) : wsFree s.reverse = wsFree s := by
  simp [wsFree, List.all_eq_true, List.mem_reverse]

theorem dropWhile_of_wsFree {s : Str} (h : wsFree s = true) :
    s.dropWhile isSpaceCh = s := by
  cases s with
  | nil => rfl
  | cons c t =>
    have hc : isSpaceCh c = false := by
      have := (List.all_eq_true.mp h) c (by simp)
      simpa using this
    simp [List.dropWhile_cons, hc]

theorem pyStrip_of_wsFree {s : Str} (h : wsFree s = true) : pyStrip s = s := by
  unfold pyStrip
  rw [dropWhile_of_wsFree h,
    dropWhile_of_wsFree (by rw [wsFree_reverse]; exact h), List.reverse_reverse]

/-- Running the fragment loop with an always-succeeding synthesizer neither
drops nor duplicates text when no fragment contains whitespace: the yielded
source texts plus the pending buffer always spell out exactly the text
consumed so far. -/
theorem runChunks_inv (minLen : Nat) (frags : List Str) :
    ∀ st : OrchState, wsFree st.buffer = true → (∀ f ∈ frags, wsFree f = true) →
      wsFree (runChunks ttsOk minLen st frags).buffer = true ∧
      (runChunks ttsOk minLen st frags).yielded.flatten ++
          (runChunks ttsOk minLen st frags).buffer
        = st.yielded.flatten ++ st.buffer ++ frags.flatten := by
  induction frags with
  | nil => intro st hb _; simpa [runChunks] using hb
  | cons f fs ih =>
    intro st hb hf
    have hfw : wsFree f = true := hf f (by simp)
    have hbuf : wsFree (st.buffer ++ f) = true := wsFree_append hb hfw
    have hstrip : pyStrip (st.buffer ++ f) = st.buffer ++ f := pyStrip_of_wsFree hbuf
    have hrun : runChunks ttsOk minLen st (f :: fs)
        = runChunks ttsOk minLen (stepChunk ttsOk minLen st f) fs := by
      simp [runChunks]
    have hstep : stepChunk ttsOk minLen st f =
        if minLen ≤ (st.buffer ++ f).length then
          ⟨[], st.yielded ++ [st.buffer ++ f]⟩
        else ⟨st.buffer ++ f, st.yielded⟩ := by
      simp [stepChunk, hstrip, ttsOk]
    by_cases hlen : minLen ≤ (st.buffer ++ f).length
    · rw [hrun, hstep, if_pos hlen]
      obtain ⟨hw', hinv'⟩ := ih ⟨[], st.yielded ++ [st.buffer ++ f]⟩ rfl
        (fun x hx => hf x (by simp [hx]))
      refine ⟨hw', ?_⟩
      simpa [List.append_assoc] using hinv'
    · rw [hrun, hstep, if_neg hlen]
      obtain ⟨hw', hinv'⟩ := ih ⟨st.buffer ++ f, st.yielded⟩ hbuf
        (fun x hx => hf x (by simp [hx]))
      refine ⟨hw', ?_⟩
      simpa [List.append_assoc] using hinv'

/-! ## Claim C1 -/

/-- Claim C1 counterexample: with the fragment chunking `["abc ", "d"]` and
every synthesis call succeeding, the turn yields the segments `["abc", "d"]`,
whose concatenation `"abcd"` is missing the space of the generated text
`"abc d"`: each flushed span is stripped before synthesis, so whitespace at
flush boundaries is dropped and the round-trip is not exact for every
chunking. -/
theorem sourceText_concat_drops_boundary_whitespace :
    orchestrate ttsOk minTtsLength [chars "abc ", chars "d"]
      = [chars "abc", chars "d"] ∧
    (orchestrate ttsOk minTtsLength [chars "abc ", chars "d"]).flatten
      ≠ ([chars "abc ", chars "d"] : List Str).flatten := by decide

/-- Claim C1 (amended): in a successful turn the concatenation of the yielded
`sourceText`s equals the full generated text exactly, for every chunking into
fragments, provided the generated text contains none of the whitespace
characters stripped by `str.strip()` (in general, each flushed span is
stripped, so whitespace at span boundaries is lost). -/
theorem sourceText_roundtrip_of_whitespace_free (minLen : Nat) (frags : List Str)
    (h : ∀ f ∈ frags, wsFree f = true) :
    (orchestrate ttsOk minLen frags).flatten = frags.flatten := by
  obtain ⟨hw, hinv⟩ := runChunks_inv minLen frags ⟨[], []⟩ rfl h
  unfold orchestrate drainFinal
  rw [pyStrip_of_wsFree hw]
  by_cases hb : (runChunks ttsOk minLen ⟨[], []⟩ frags).buffer = []
  · rw [if_pos (by simp [hb])]
    simpa [hb] using hinv
  · rw [if_neg (by simp [hb])]
    simpa [ttsOk, List.append_assoc] using hinv

/-- Witness for C1 (amended): the whitespace-free chunking `["He", "llo"]`
round-trips exactly. -/
theorem sourceText_roundtrip_witness :
    (orchestrate ttsOk minTtsLength [chars "He", chars "llo"]).flatten
      = ([chars "He", chars "llo"] : List Str).flatten :=
  sourceText_roundtrip_of_whitespace_free minTtsLength [chars "He", chars "llo"]
    (by decide)

/-! ## Claim C2 -/

/-- Claim C2 counterexample: when the generation stream fails after the single
fragment `"ab"` was accumulated, the turn does not flush the pending `"ab"`
on its own — the model layer appends its fixed apology fragment, so the one
yielded segment is `"ab"` followed by the apology text.  An apology is
therefore part of the yielded output, contrary to the claim. -/
theorem midstream_failure_appends_apology_to_pending :
    orchestrate ttsOk minTtsLength
        (callAiApiStream (chars "deepseek") ⟨true, [chars "ab"], true⟩)
      = [chars "ab" ++ mmApology] ∧
    chars "ab" ++ mmApology ≠ chars "ab" ∧
    containsSub mmApology (chars "ab" ++ mmApology) = true := by decide

/-- Claim C2 (amended): a generation stream that fails after yielding some
fragments behaves exactly like a successful stream that yields those fragments
followed by the model layer's fixed apology fragment — the pending text is
flushed together with that apology (never as the claim's standalone pending
flush), and the handler-level fallback branch is not involved. -/
theorem midstream_failure_runs_as_stream_with_apology (synth : Str → Bool)
    (minLen : Nat) (provider : Str) (frags : List Str) :
    orchestrate synth minLen (callAiApiStream provider ⟨true, frags, true⟩)
      = orchestrate synth minLen (frags ++ [mmApology]) := by
  simp [callAiApiStream]

/-! ## Claim C6 -/

/-- Claim C6: with threshold 3 and fragments `["a", "b", "cd"]`, no flush
happens after the first or second fragment, the third fragment triggers
exactly one flush with source text `"abcd"`, and nothing is pending at stream
end, so no final flush occurs. -/
theorem threshold_example_single_flush :
    orchestrate ttsOk 3 [chars "a", chars "b", chars "cd"] = [chars "abcd"] ∧
    (runChunks ttsOk 3 ⟨[], []⟩ [chars "a"]).yielded = [] ∧
    (runChunks ttsOk 3 ⟨[], []⟩ [chars "a", chars "b"]).yielded = [] ∧
    (runChunks ttsOk 3 ⟨[], []⟩ [chars "a", chars "b", chars "cd"]).buffer = [] := by
  decide

/-! ## Claim C3 -/

/-- Claim C3: when the generation stream fails before any fragment was
received, the model layer yields only its fixed apology fragment, and a turn
whose transcript passes the gate and the quality filter yields exactly one
segment whose source text is that apology.  (The code has no explicit state
machine; the spec's `Failed` terminal state is not observable beyond this
single-apology output.) -/
theorem prefail_empty_stream_yields_single_apology (r : TranscriptionResult)
    (provider : Str)
    (h1 : (pyStrip r.text).isEmpty = false)
    (h2 : ¬9 / 10 < r.noSpeechProb)
    (h3 : (qualityFilter (pyStrip r.text)).1 = false) :
    runFromTranscription r provider ⟨true, [], true⟩ ttsOk
      = .completed [mmApology] := by
  have hcond : ¬((pyStrip r.text).isEmpty = true ∨ 9 / 10 < r.noSpeechProb) := by
    rw [h1]; rintro (h | h)
    · exact Bool.false_ne_true h
    · exact h2 h
  have hstream : callAiApiStream provider ⟨true, [], true⟩ = [mmApology] := by
    simp [callAiApiStream]
  unfold runFromTranscription
  rw [if_neg hcond, h1, if_neg Bool.false_ne_true, h3,
    if_neg Bool.false_ne_true, hstream]
  exact congrArg TurnResult.completed (by decide)

/-- Witness for C3 at the transcript `"Hello"` with no-speech probability 0. -/
theorem prefail_single_apology_witness :
    runFromTranscription ⟨chars "Hello", chars "en", 0⟩ (chars "deepseek")
        ⟨true, [], true⟩ ttsOk
      = .completed [mmApology] :=
  prefail_empty_stream_yields_single_apology ⟨chars "Hello", chars "en", 0⟩
    (chars "deepseek") (by decide) (by norm_num) (by with_unfolding_all decide)

/-! ## Claim C4 -/

/-- Claim C4 counterexample: the transcript equal to the deny-listed phrase
`"subtitle by someone"` is rejected, but the surfaced reason is not that of
the first matching rule (the deny-list rule naming `"subtitle by someone"`):
`bad_reason` is overwritten by each later matching rule, and the hallucination
pattern list also matches, so the final reason names the hallucination pattern
`"subtitle"`. -/
theorem denylist_reason_overwritten_by_hallucination_rule :
    (qualityFilter (chars "subtitle by someone")).1 = true ∧
    (qualityFilter (chars "subtitle by someone")).2
      = some (.hallucinationPattern (chars "subtitle")) ∧
    (qualityFilter (chars "subtitle by someone")).2
      ≠ some (.containsErrorString (chars "subtitle by someone")) := by
  with_unfolding_all decide

/-- Claim C4 (amended): for every transcript equal to exactly one deny-listed
phrase, the turn yields zero segments; the surfaced rejection reason is that
of the last matching rule, which for each deny-listed phrase is the
hallucination-pattern rule naming `"subtitle"` — not the deny-list rule naming
the phrase. -/
theorem denylist_phrase_rejected_with_last_rule_reason (p : Str)
    (hp : p ∈ badStrings) (lang : Str) (prob : ℚ) (hprob : ¬9 / 10 < prob)
    (provider : Str) (g : GenInput) (synth : Str → Bool) :
    runFromTranscription ⟨p, lang, prob⟩ provider g synth
      = .rejectedFilter (some (.hallucinationPattern (chars "subtitle"))) ∧
    segmentsOf (runFromTranscription ⟨p, lang, prob⟩ provider g synth) = [] := by
  have key : ∀ q ∈ badStrings, pyStrip q = q ∧ q.isEmpty = false ∧
      qualityFilter q = (true, some (.hallucinationPattern (chars "subtitle"))) := by
    decide
  obtain ⟨hstrip, hne, hqf⟩ := key p hp
  have hmain : runFromTranscription ⟨p, lang, prob⟩ provider g synth
      = .rejectedFilter (some (.hallucinationPattern (chars "subtitle"))) := by
    unfold runFromTranscription
    simp [hstrip, hne, hprob, hqf]
  exact ⟨hmain, by rw [hmain]; rfl⟩

/-- Witness for C4 (amended) at the deny-listed phrase `"subtitle by"`. -/
theorem denylist_rejection_witness :
    runFromTranscription ⟨chars "subtitle by", chars "en", 0⟩ (chars "deepseek")
        ⟨true, [chars "Hi"], false⟩ ttsOk
      = .rejectedFilter (some (.hallucinationPattern (chars "subtitle"))) ∧
    segmentsOf (runFromTranscription ⟨chars "subtitle by", chars "en", 0⟩
        (chars "deepseek") ⟨true, [chars "Hi"], false⟩ ttsOk) = [] :=
  denylist_phrase_rejected_with_last_rule_reason (chars "subtitle by") (by decide)
    (chars "en") 0 (by norm_num) (chars "deepseek") ⟨true, [chars "Hi"], false⟩ ttsOk

/-! ## Claim C5 -/

/-- Claim C5 counterexample: the transcript `"subtitle"` with no-speech
probability 0 satisfies neither gate condition (non-empty after stripping,
probability below 0.9), yet the turn yields zero segments — the quality
filter rejects it.  "Zero segments yielded" is therefore not equivalent to
the gate condition. -/
theorem zero_segments_not_only_from_gate :
    segmentsOf (runFromTranscription ⟨chars "subtitle", chars "en", 0⟩
        (chars "deepseek") ⟨true, [chars "Hi there"], false⟩ ttsOk) = [] ∧
    ¬((pyStrip (chars "subtitle")).isEmpty = true ∨ (9 : ℚ) / 10 < 0) := by
  with_unfolding_all decide

/-- Claim C5 (amended): the transcription gate rejects exactly when the
stripped transcript is empty or the no-speech probability exceeds 0.9, and
whenever that condition holds the turn yields zero segments before any
quality-filter heuristic runs (the converse fails: later stages can also
reject). -/
theorem gate_rejects_iff_empty_or_high_noSpeech (r : TranscriptionResult)
    (provider : Str) (g : GenInput) (synth : Str → Bool) :
    (runFromTranscription r provider g synth = .rejectedGate ↔
      ((pyStrip r.text).isEmpty = true ∨ 9 / 10 < r.noSpeechProb)) ∧
    (((pyStrip r.text).isEmpty = true ∨ 9 / 10 < r.noSpeechProb) →
      segmentsOf (runFromTranscription r provider g synth) = []) := by
  by_cases hc : (pyStrip r.text).isEmpty = true ∨ 9 / 10 < r.noSpeechProb
  · have hg : runFromTranscription r provider g synth = .rejectedGate := by
      unfold runFromTranscription
      rw [if_pos hc]
    exact ⟨iff_of_true hg hc, fun _ => by rw [hg]; rfl⟩
  · have he : (pyStrip r.text).isEmpty = false := by
      rcases Bool.eq_false_or_eq_true (pyStrip r.text).isEmpty with h | h
      · exact absurd (Or.inl h) hc
      · exact h
    have hg : runFromTranscription r provider g synth ≠ .rejectedGate := by
      unfold runFromTranscription
      rw [if_neg hc, he]
      simp only [Bool.false_eq_true, if_false]
      by_cases hf : (qualityFilter (pyStrip r.text)).1 = true <;> simp [hf]
    exact ⟨iff_of_false hg hc, fun h => absurd h hc⟩

/-- Witness for C5 (amended): a no-speech probability of 0.95 on the
otherwise valid transcript `"Hello"` is rejected at the gate, with zero
segments. -/
theorem gate_rejects_witness :
    runFromTranscription ⟨chars "Hello", chars "en", 19 / 20⟩ (chars "deepseek")
        ⟨true, [chars "Hi"], false⟩ ttsOk = .rejectedGate ∧
    segmentsOf (runFromTranscription ⟨chars "Hello", chars "en", 19 / 20⟩
        (chars "deepseek") ⟨true, [chars "Hi"], false⟩ ttsOk) = [] := by
  have h := gate_rejects_iff_empty_or_high_noSpeech
    ⟨chars "Hello", chars "en", 19 / 20⟩ (chars "deepseek")
    ⟨true, [chars "Hi"], false⟩ ttsOk
  exact ⟨h.1.mpr (Or.inr (by norm_num)), h.2 (Or.inr (by norm_num))⟩

/-! ## Claim C7 -/

/-- Claim C7: whenever the mono, rate-converted signal is shorter than
`minAudioDuration` (duration = sample count / sample rate), the conditioner
rejects the turn and the pipeline yields zero speech segments, whatever the
transcriber, model stream and synthesizer would have done. -/
theorem short_audio_rejected_zero_segments (cfg : PerfCfg) (sqrtFn : ℚ → ℚ)
    (input : AudioInput) (rate : Nat) (dt : PcmType) (stt : SttOracle)
    (provider : Str) (g : GenInput) (synth : Str → Bool)
    (h : durationOf (processedAudio input rate) < cfg.minAudioDuration) :
    isConditionerRejection
        (runAudioTurn cfg sqrtFn input rate dt stt provider g synth) = true ∧
    fullSegmentsOf
        (runAudioTurn cfg sqrtFn input rate dt stt provider g synth) = [] := by
  unfold runAudioTurn
  by_cases he : pyLenAudio input = 0
  · rw [if_pos he]
    exact ⟨rfl, rfl⟩
  · rw [if_neg he, if_pos h]
    exact ⟨rfl, rfl⟩

/-- Witness for C7: a two-sample 24 kHz clip against a 0.5 s minimum duration
is rejected with zero segments. -/
theorem short_audio_rejected_witness :
    isConditionerRejection
        (runAudioTurn ⟨1 / 2, 30⟩ id (.mono [1, 1]) 24000 .i16
          ⟨true, fun _ _ => none⟩ (chars "deepseek") ⟨true, [], false⟩ ttsOk)
      = true ∧
    fullSegmentsOf
        (runAudioTurn ⟨1 / 2, 30⟩ id (.mono [1, 1]) 24000 .i16
          ⟨true, fun _ _ => none⟩ (chars "deepseek") ⟨true, [], false⟩ ttsOk)
      = [] :=
  short_audio_rejected_zero_segments ⟨1 / 2, 30⟩ id (.mono [1, 1]) 24000 .i16
    ⟨true, fun _ _ => none⟩ (chars "deepseek") ⟨true, [], false⟩ ttsOk
    (by with_unfolding_all decide)

/-! ## Claim C8 -/

/-- Claim C8 counterexample: 16000 Hz is exactly double the supported rate
8000 Hz, yet the conditioner leaves a 16000 Hz input untouched — only the
literal rate 48000 is ever downsampled. -/
theorem double_supported_rate_16000_not_downsampled :
    8000 ∈ supportedSampleRates ∧ 16000 = 2 * 8000 ∧
    downsampleStage [(1 : ℚ), 2, 3] 16000 = ([1, 2, 3], 16000) ∧
    (downsampleStage [(1 : ℚ), 2, 3] 16000).2 ≠ 8000 := by
  with_unfolding_all decide

/-- The slice `[::2]` keeps exactly the samples at even positions: it agrees
with the alternating keep/skip walk over the list. -/
theorem everySecond_eq_everyOther (l : List α) :
    everySecond l = everyOther true l := by
  have h : ∀ n (l : List α), l.length ≤ n → everySecond l = everyOther true l := by
    intro n
    induction n with
    | zero =>
      intro l hl
      have : l = [] := List.eq_nil_of_length_eq_zero (Nat.le_zero.mp hl)
      subst this; rfl
    | succ n ih =>
      intro l hl
      match l with
      | [] => rfl
      | [a] => rfl
      | a :: b :: t =>
        simp only [everySecond, everyOther]
        exact congrArg _ (ih t (by simp at hl; omega))
  exact h l.length l le_rfl

/-- Claim C8 (amended): only an input at exactly 48000 Hz is downsampled —
by keeping every second sample, with the stored rate updated to 24000 Hz;
an input at any other rate (including rates that are double another supported
rate, such as 16000 = 2 × 8000) is left at its original rate with its samples
untouched. -/
theorem downsample_only_at_48000 (l : List ℚ) (rate : Nat) :
    (rate = 48000 → downsampleStage l rate = (everyOther true l, 24000)) ∧
    (rate ≠ 48000 → downsampleStage l rate = (l, rate)) := by
  constructor
  · intro h
    subst h
    simp [downsampleStage, everySecond_eq_everyOther]
  · intro h
    simp [downsampleStage, h]

/-- Witness for C8 (amended): a 48000 Hz input is decimated to the
even-position samples at 24000 Hz. -/
theorem downsample_witness :
    downsampleStage [(5 : ℚ), 6, 7] 48000 = ([5, 7], 24000) := by
  have h := (downsample_only_at_48000 [(5 : ℚ), 6, 7] 48000).1 rfl
  rw [h]
  with_unfolding_all decide

/-! ## Claim C9 -/

theorem maxAbsQ_cons (a : ℚ) (l : List ℚ) :
    maxAbsQ (a :: l) = max |a| (maxAbsQ l) := rfl

theorem maxAbsQ_map_mul (c : ℚ) (hc : 0 ≤ c) (l : List ℚ) :
    maxAbsQ (l.map (· * c)) = maxAbsQ l * c := by
  induction l with
  | nil => simp [maxAbsQ]
  | cons a t ih =>
    rw [List.map_cons, maxAbsQ_cons, maxAbsQ_cons, ih, abs_mul,
      abs_of_nonneg hc, max_mul_of_nonneg _ _ hc]

/-- Claim C9 counterexample: the conditioned float signal
`[1/200, 9/1000]` has peak amplitude `9/1000 ∈ (0, 1/100)` and is rescaled to
peak `1/10` by the normalization step, but the zero-crossing-rate branch then
subtracts the mean, so the signal actually handed to transcription is
`[-1/45, 1/45]`, whose peak is `1/45`, not `1/10`. -/
theorem stt_input_peak_changed_by_dc_removal :
    0 < maxAbsQ [(1 : ℚ) / 200, 9 / 1000] ∧
    maxAbsQ [(1 : ℚ) / 200, 9 / 1000] < 1 / 100 ∧
    conditionFloat ⟨0, 30⟩ 24000 id [(1 : ℚ) / 200, 9 / 1000]
      = some [-(1 / 45), 1 / 45] ∧
    maxAbsQ [-(1 : ℚ) / 45, 1 / 45] ≠ 1 / 10 := by
  with_unfolding_all decide

/-- Claim C9 (amended): the normalization step itself rescales a signal with
peak amplitude strictly between 0 and 0.01 by `0.1 / peak`, so immediately
after this step the peak is exactly 0.1, and it leaves signals with peak 0 or
at least 0.01 unchanged; the signal handed to transcription may however have a
different peak, because the later DC-offset removal can shift it. -/
theorem amplitude_normalization_peak (l : List ℚ) :
    (0 < maxAbsQ l → maxAbsQ l < 1 / 100 →
      maxAbsQ (normalizeAmplitude l) = 1 / 10) ∧
    (maxAbsQ l = 0 ∨ 1 / 100 ≤ maxAbsQ l → normalizeAmplitude l = l) := by
  constructor
  · intro h1 h2
    unfold normalizeAmplitude
    rw [if_pos ⟨h1, h2⟩]
    have hf : (fun x => x / maxAbsQ l * (1 / 10))
        = (fun x => x * (1 / (10 * maxAbsQ l))) := by
      funext x
      ring
    rw [hf, maxAbsQ_map_mul _ (by positivity) l]
    field_simp
    ring
  · intro h
    unfold normalizeAmplitude
    rw [if_neg]
    rintro ⟨h1, h2⟩
    rcases h with h | h
    · exact absurd h1 (by rw [h]; exact lt_irrefl 0)
    · exact absurd h2 (not_lt.mpr h)

/-- Witness for C9 (amended): the signal `[1/200, 9/1000]` is rescaled to
peak exactly `1/10`, and a signal with peak `1/2` is left unchanged. -/
theorem amplitude_normalization_witness :
    maxAbsQ (normalizeAmplitude [(1 : ℚ) / 200, 9 / 1000]) = 1 / 10 ∧
    normalizeAmplitude [(1 : ℚ) / 2] = [(1 : ℚ) / 2] :=
  ⟨(amplitude_normalization_peak [(1 : ℚ) / 200, 9 / 1000]).1
      (by with_unfolding_all decide) (by with_unfolding_all decide),
    (amplitude_normalization_peak [(1 : ℚ) / 2]).2
      (Or.inr (by with_unfolding_all decide))⟩

/-! ## Claim C10 -/

/-- Claim C10: after every `add_to_history` call the history holds at most 20
entries; it is always a suffix of the previous history with the new entry
appended (the most recently added entries, in order), of length
`min 20 (previous length + 1)` — so when the cap is exceeded exactly the 20
most recent entries are retained. -/
theorem add_to_history_keeps_last_twenty (h : List HistoryEntry)
    (role content : Str) :
    (addToHistory h role content).length ≤ 20 ∧
    (addToHistory h role content).length = min 20 (h.length + 1) ∧
    List.IsSuffix (addToHistory h role content) (h ++ [⟨role, content⟩]) := by
  unfold addToHistory
  have hlen : (h ++ [(⟨role, content⟩ : HistoryEntry)]).length = h.length + 1 := by
    simp
  by_cases hl : (h ++ [(⟨role, content⟩ : HistoryEntry)]).length > 20
  · rw [if_pos hl]
    rw [hlen] at hl ⊢
    refine ⟨?_, ?_, List.drop_suffix _ _⟩
    · rw [List.length_drop, hlen]; omega
    · rw [List.length_drop, hlen]; omega
  · rw [if_neg hl]
    rw [hlen] at hl
    exact ⟨by rw [hlen]; omega, by rw [hlen]; omega, List.suffix_refl _⟩

end VoiceAgent
